import Mathlib

/-!
Shallow embedding of the analysis engine of `chtc-memory-analyzer`
(`src/chtc_memory_analyzer/analysis/stats.py` and
`src/chtc_memory_analyzer/analysis/memory_analyzer.py`).

Numbers are modelled as rationals.  Two pandas phenomena need a discrete
representation:

* an aggregation over an empty (or all-missing) sample yields the floating
  point value NaN; we model such values with the inductive `NumQ`
  (`NumQ.nan` or `NumQ.q x`);
* the sample standard deviation `Series.std()` (ddof = 1) yields NaN for a
  sample of fewer than two values and otherwise the square root of the
  sample variance, which is irrational in general; we represent it
  symbolically with `StdevVal`, whose value `StdevVal.sqrtOf v` denotes the
  nonnegative square root of `v` (so `sqrtOf 0` denotes exactly `0`, which
  is also the value of the literal `0` returned on the empty branch of
  `calculate_stats`).

A job record follows the input contract of the core: `used_memory` may be
absent, and both data sources (`pd.read_csv` and `pd.DataFrame(records)`)
deliver an absent value as a float NaN in a float64 column, which
`Series.tolist()` preserves as a float NaN, never as Python `None`.  A
possibly-NaN float column or list is modelled as `List (Option ℚ)` with
`none` for NaN; the other fields are always present.
-/

/-- A pandas-style numeric value: either NaN or a rational. -/
inductive NumQ where
  | nan : NumQ
  | q : ℚ → NumQ
deriving DecidableEq, Repr

/-- NaN-propagating addition, as in IEEE arithmetic used by pandas. -/
def NumQ.add : NumQ → NumQ → NumQ
  | .nan, _ => .nan
  | _, .nan => .nan
  | .q a, .q b => .q (a + b)

/-- NaN-propagating multiplication, as in IEEE arithmetic used by pandas. -/
def NumQ.mul : NumQ → NumQ → NumQ
  | .nan, _ => .nan
  | _, .nan => .nan
  | .q a, .q b => .q (a * b)

/-- The value of `Series.std()` (ddof = 1): NaN when fewer than two values
contribute, otherwise the nonnegative square root of the sample variance
`v`, represented symbolically as `sqrtOf v` (so `sqrtOf v = sqrtOf 0` iff
the denoted standard deviation is exactly `0`). -/
inductive StdevVal where
  | nan : StdevVal
  | sqrtOf : ℚ → StdevVal
deriving DecidableEq, Repr

/-- Minimum of a list of rationals (`Series.min()`), `0` on the empty list
(that branch is never used by `calculate_stats`, which handles empty input
separately). -/
def listMin : List ℚ → ℚ
  | [] => 0
  | x :: xs => xs.foldl min x

/-- Maximum of a list of rationals (`Series.max()`). -/
def listMax : List ℚ → ℚ
  | [] => 0
  | x :: xs => xs.foldl max x

/-- Arithmetic mean (`Series.mean()`). -/
def listMean (vs : List ℚ) : ℚ := vs.sum / (vs.length : ℚ)

/-- Standard sample median (`Series.median()`): middle element of the
sorted list, or the average of the two middle elements for an even
length. -/
def listMedian (vs : List ℚ) : ℚ :=
  let s := List.insertionSort (fun a b : ℚ => a ≤ b) vs
  let n := vs.length
  if n % 2 = 1 then s.getD (n / 2) 0
  else (s.getD (n / 2 - 1) 0 + s.getD (n / 2) 0) / 2

/-- Sample variance with divisor `length - 1` (the square of
`Series.std()` with ddof = 1); only used for lists of length at least
two. -/
def sampleVar (vs : List ℚ) : ℚ :=
  ((vs.map (fun x => (x - listMean vs) ^ 2)).sum) / ((vs.length : ℚ) - 1)

/-- The result dictionary of `calculate_stats` (stats.py). -/
structure StatsResult where
  mean : ℚ
  median : ℚ
  stdev : StdevVal
  min : ℚ
  max : ℚ
  count : ℕ
deriving DecidableEq, Repr

/-- `calculate_stats` (stats.py, lines 18–36) on a list of plain numbers:
empty input returns the all-zero dictionary; otherwise the pandas
aggregations over the series.  `Series.std()` is NaN for a single value
(ddof = 1) and `sqrtOf (sampleVar vs)` otherwise. -/
def calculate_stats (values : List ℚ) : StatsResult :=
  if values.isEmpty then
    { mean := 0, median := 0, stdev := .sqrtOf 0, min := 0, max := 0, count := 0 }
  else
    { mean := listMean values
      median := listMedian values
      stdev := if values.length = 1 then .nan else .sqrtOf (sampleVar values)
      min := listMin values
      max := listMax values
      count := values.length }

/-- The result dictionary of `calculate_stats` on a series that may hold
missing values (NaN): the aggregations skip missing values and may
themselves be NaN. -/
structure StatsResultN where
  mean : NumQ
  median : NumQ
  stdev : StdevVal
  min : NumQ
  max : NumQ
  count : ℕ
deriving DecidableEq, Repr

/-- `calculate_stats` (stats.py) applied to a list that may hold missing
values, as the analyzer does for the used-memory column: pandas skips
missing values in the aggregations (`skipna`), yielding NaN when no value
is present, while `count = len(series)` counts every entry, missing ones
included. -/
def calculateStatsN (values : List (Option ℚ)) : StatsResultN :=
  if values.isEmpty then
    { mean := .q 0, median := .q 0, stdev := .sqrtOf 0,
      min := .q 0, max := .q 0, count := 0 }
  else
    let present := values.filterMap id
    { mean := if present.isEmpty then .nan else .q (listMean present)
      median := if present.isEmpty then .nan else .q (listMedian present)
      stdev := if present.length ≤ 1 then .nan else .sqrtOf (sampleVar present)
      min := if present.isEmpty then .nan else .q (listMin present)
      max := if present.isEmpty then .nan else .q (listMax present)
      count := values.length }

/-- One job record, following the input contract of the core
(memory_analyzer.py expects the columns `ClusterId`, `Owner`,
`RequestMemory`, `MemoryUsage`): `used_memory` may be absent. -/
structure JobRecord where
  cluster_id : Int
  owner : String
  requested_memory : ℚ
  used_memory : Option ℚ
deriving DecidableEq, Repr

/-- The input DataFrame: its schema (column names) and its rows.  The
schema is carried separately because `MemoryAnalyzer.analyze` validates
the presence of the required column names before touching the data. -/
structure JobTable where
  columns : List String
  rows : List JobRecord
deriving DecidableEq, Repr

/-- The group of `df.groupby("ClusterId")` for key `c`: the records with
that cluster id, in their original order. -/
def clusterGroup (jobs : List JobRecord) (c : Int) : List JobRecord :=
  jobs.filter (fun j => j.cluster_id == c)

/-- The keys of `df.groupby("ClusterId")`, each distinct cluster id once,
in ascending order (pandas sorts group keys). -/
def clusterIds (jobs : List JobRecord) : List Int :=
  List.insertionSort (fun a b : Int => a ≤ b) (jobs.map (fun j => j.cluster_id)).dedup

/-- The ratio loop of `_analyze_by_cluster` (memory_analyzer.py, lines
87–90): `for req, used in zip(...): if req and req > 0 and used is not
None: ratios.append(used / req)`.  `req` truthy means `req ≠ 0`.  The
`used` values come from `group["MemoryUsage"].tolist()`, where both data
sources encode an absent value as the float NaN (`none` here), never as
Python `None` — so `used is not None` is true for an absent value too, and
the loop appends `nan / req = nan` for it.  The result is therefore a
possibly-NaN list: one entry per record with `req ≠ 0 ∧ 0 < req`, holding
`some (used / req)` when `used` is present and `none` (NaN) when it is
absent. -/
def memoryRatios (requested : List ℚ) (used : List (Option ℚ)) : List (Option ℚ) :=
  (requested.zip used).filterMap fun p =>
    if p.1 ≠ 0 ∧ 0 < p.1 then
      match p.2 with
      | some u => some (some (u / p.1))
      | none => some none
    else none

/-- The `memory` sub-dictionary of a cluster analysis.  The ratios list
may hold NaN entries (absent used memory), so its statistics follow the
pandas NaN treatment like the used-memory statistics. -/
structure MemoryStats where
  requested : StatsResult
  used : StatsResultN
  ratios : StatsResultN
deriving DecidableEq, Repr

/-- One cluster analysis dictionary produced by `_analyze_by_cluster`
(`raw_used_memory` is `raw_data["used_memory"]`). -/
structure ClusterAnalysis where
  cluster_id : Int
  job_count : ℕ
  owner : String
  memory : MemoryStats
  raw_used_memory : List (Option ℚ)
deriving DecidableEq, Repr

/-- The loop body of `_analyze_by_cluster` for one group. -/
def analyzeCluster (jobs : List JobRecord) (c : Int) : ClusterAnalysis :=
  let group := clusterGroup jobs c
  let owner := ((group.head?).map (fun j => j.owner)).getD "unknown"
  let requested_memory := group.map (fun j => j.requested_memory)
  let used_memory := group.map (fun j => j.used_memory)
  let ratios := memoryRatios requested_memory used_memory
  { cluster_id := c
    job_count := group.length
    owner := owner
    memory :=
      { requested := calculate_stats requested_memory
        used := calculateStatsN used_memory
        ratios := calculateStatsN ratios }
    raw_used_memory := used_memory }

/-- Ordering of cluster analyses by cluster id, used by the final
`analyses.sort(key=lambda x: x["cluster_id"])`. -/
def clusterLE (a b : ClusterAnalysis) : Prop := a.cluster_id ≤ b.cluster_id

instance : DecidableRel clusterLE := fun a b => Int.decLe a.cluster_id b.cluster_id

instance : IsTotal ClusterAnalysis clusterLE := ⟨fun a b => Int.le_total a.cluster_id b.cluster_id⟩

instance : IsTrans ClusterAnalysis clusterLE := ⟨fun _ _ _ h h2 => le_trans h h2⟩

/-- `MemoryAnalyzer._analyze_by_cluster` (memory_analyzer.py, lines
66–107): one analysis per group, sorted by cluster id. -/
def analyzeByCluster (jobs : List JobRecord) : List ClusterAnalysis :=
  List.insertionSort clusterLE ((clusterIds jobs).map (analyzeCluster jobs))

/-- One user's running totals in `_analyze_by_user`.  A collected mean
ratio can itself be NaN (a cluster whose every ratio entry is NaN), so the
`memory_ratios` entries are possibly-NaN values. -/
structure UserTotals where
  clusters : List Int
  total_jobs : ℕ
  total_requested_memory : ℚ
  total_used_memory : NumQ
  memory_ratios : List NumQ
deriving DecidableEq, Repr

/-- The defaultdict initial value of `_analyze_by_user`. -/
def UserTotals.empty : UserTotals :=
  { clusters := [], total_jobs := 0, total_requested_memory := 0,
    total_used_memory := .q 0, memory_ratios := [] }

/-- The loop body of `_analyze_by_user` applied to one user's totals:
appends the cluster id and job count, adds `mean * count` for requested
and used memory when the respective count is positive, and appends the
mean ratio when the ratio count is positive. -/
def addAnalysis (t : UserTotals) (a : ClusterAnalysis) : UserTotals :=
  { clusters := t.clusters ++ [a.cluster_id]
    total_jobs := t.total_jobs + a.job_count
    total_requested_memory :=
      if 0 < a.memory.requested.count then
        t.total_requested_memory + a.memory.requested.mean * (a.memory.requested.count : ℚ)
      else t.total_requested_memory
    total_used_memory :=
      if 0 < a.memory.used.count then
        t.total_used_memory.add (a.memory.used.mean.mul (.q (a.memory.used.count : ℚ)))
      else t.total_used_memory
    memory_ratios :=
      if 0 < a.memory.ratios.count then t.memory_ratios ++ [a.memory.ratios.mean]
      else t.memory_ratios }

/-- One step of `_analyze_by_user` on the owner-keyed dictionary,
modelled as an association list in insertion order (Python dicts preserve
insertion order). -/
def updateUser (m : List (String × UserTotals)) (a : ClusterAnalysis) :
    List (String × UserTotals) :=
  match m with
  | [] => [(a.owner, addAnalysis UserTotals.empty a)]
  | (o, t) :: rest =>
      if o = a.owner then (o, addAnalysis t a) :: rest
      else (o, t) :: updateUser rest a

/-- `MemoryAnalyzer._analyze_by_user` (memory_analyzer.py, lines
109–151). -/
def analyzeByUser (analyses : List ClusterAnalysis) : List (String × UserTotals) :=
  analyses.foldl updateUser []

/-- Dictionary lookup in the owner-keyed association list. -/
def lookupUser (m : List (String × UserTotals)) (o : String) : Option UserTotals :=
  match m with
  | [] => none
  | (o2, t) :: rest => if o2 = o then some t else lookupUser rest o

/-- One over-allocation tuple `(cluster_id, owner, usage_ratio)`. -/
structure OverAllocEntry where
  cluster_id : Int
  owner : String
  ratio : ℚ
deriving DecidableEq, Repr

/-- Ordering of over-allocation entries by usage ratio, used by
`over_alloc.sort(key=lambda x: x[2])`. -/
def ratioLE (a b : OverAllocEntry) : Prop := a.ratio ≤ b.ratio

instance : DecidableRel ratioLE := fun a b => Rat.instDecidableLe a.ratio b.ratio

instance : IsTotal OverAllocEntry ratioLE := ⟨fun a b => le_total a.ratio b.ratio⟩

instance : IsTrans OverAllocEntry ratioLE := ⟨fun _ _ _ h h2 => le_trans h h2⟩

/-- `MemoryAnalyzer._find_over_allocators` (memory_analyzer.py, lines
153–176): keep clusters with `mem_ratio > 0 and mem_ratio < threshold`,
sorted ascending by ratio.  A NaN mean ratio fails `mem_ratio > 0` (IEEE
comparisons with NaN are false) and is excluded. -/
def findOverAllocators (analyses : List ClusterAnalysis) (threshold : ℚ) :
    List OverAllocEntry :=
  List.insertionSort ratioLE
    (analyses.filterMap fun a =>
      match a.memory.ratios.mean with
      | .nan => none
      | .q x =>
          if 0 < x ∧ x < threshold then
            some { cluster_id := a.cluster_id, owner := a.owner, ratio := x }
          else none)

/-- The default `threshold` of `_find_over_allocators`. -/
def defaultThreshold : ℚ := 1 / 2

/-- The required column names of `MemoryAnalyzer.analyze` (line 38). -/
def requiredColumns : List String := ["ClusterId", "Owner", "RequestMemory", "MemoryUsage"]

/-- The `ValueError` of `MemoryAnalyzer.analyze` on a schema violation:
its message enumerates the missing and the available columns, modelled as
a structured value. -/
inductive AnalyzeError where
  | schemaError (missing : List String) (available : List String)
deriving DecidableEq, Repr

/-- The result bundle of `MemoryAnalyzer.analyze`. -/
structure AnalysisResult where
  cluster_analyses : List ClusterAnalysis
  user_totals : List (String × UserTotals)
  over_allocators : List OverAllocEntry
deriving DecidableEq, Repr

/-- The `min_jobs` filter of `MemoryAnalyzer.analyze` (lines 46–49): keep
the rows whose cluster has at least `min_jobs` records. -/
def filteredRows (rows : List JobRecord) (min_jobs : ℕ) : List JobRecord :=
  rows.filter (fun j => decide (min_jobs ≤ (clusterGroup rows j.cluster_id).length))

/-- `MemoryAnalyzer.analyze` (memory_analyzer.py, lines 23–64): validate
the required columns; keep only the rows of clusters with at least
`min_jobs` records; run the three aggregation stages. -/
def analyze (t : JobTable) (min_jobs : ℕ) : Except AnalyzeError AnalysisResult :=
  let missing := requiredColumns.filter (fun c => !(t.columns.contains c))
  if missing.isEmpty then
    let cluster_analyses := analyzeByCluster (filteredRows t.rows min_jobs)
    Except.ok
      { cluster_analyses := cluster_analyses
        user_totals := analyzeByUser cluster_analyses
        over_allocators := findOverAllocators cluster_analyses defaultThreshold }
  else Except.error (.schemaError missing t.columns)

/-- The contribution of one cluster analysis to its owner's
`total_requested_memory`: `mean * count`, or `0` for a zero-count
statistic (the skipped term). -/
def reqTerm (a : ClusterAnalysis) : ℚ :=
  if 0 < a.memory.requested.count then
    a.memory.requested.mean * (a.memory.requested.count : ℚ)
  else 0

/-- The contribution of one cluster analysis to its owner's
`total_used_memory`. -/
def usedTerm (a : ClusterAnalysis) : NumQ :=
  if 0 < a.memory.used.count then
    a.memory.used.mean.mul (NumQ.q (a.memory.used.count : ℚ))
  else NumQ.q 0

/-!  Concrete sample inputs used to instantiate the theorems below. -/

/-- A one-job table satisfying the schema, whose single cluster survives
`min_jobs = 1`. -/
def sampleTable : JobTable :=
  { columns := ["ClusterId", "Owner", "RequestMemory", "MemoryUsage"],
    rows := [{ cluster_id := 1, owner := "u", requested_memory := 1, used_memory := some 1 }] }

/-- The cluster analysis `analyze sampleTable 1` produces. -/
def sampleAnalysis : ClusterAnalysis :=
  { cluster_id := 1, job_count := 1, owner := "u",
    memory :=
      { requested := { mean := 1, median := 1, stdev := .nan, min := 1, max := 1, count := 1 },
        used := { mean := .q 1, median := .q 1, stdev := .nan, min := .q 1, max := .q 1,
                  count := 1 },
        ratios := { mean := .q 1, median := .q 1, stdev := .nan, min := .q 1, max := .q 1,
                    count := 1 } },
    raw_used_memory := [some 1] }

/-- The full result bundle of `analyze sampleTable 1`. -/
def sampleResult : AnalysisResult :=
  { cluster_analyses := [sampleAnalysis],
    user_totals := [("u", { clusters := [1], total_jobs := 1, total_requested_memory := 1,
                            total_used_memory := .q 1, memory_ratios := [.q 1] })],
    over_allocators := [] }

/-- A cluster analysis whose mean ratio is `1`, below a threshold of `2`. -/
def oaSample : ClusterAnalysis :=
  { cluster_id := 7, job_count := 3, owner := "carol",
    memory :=
      { requested := { mean := 4, median := 4, stdev := .sqrtOf 0, min := 4, max := 4,
                       count := 3 },
        used := { mean := .q 4, median := .q 4, stdev := .sqrtOf 0, min := .q 4, max := .q 4,
                  count := 3 },
        ratios := { mean := .q 1, median := .q 1, stdev := .sqrtOf 0, min := .q 1, max := .q 1,
                    count := 3 } },
    raw_used_memory := [some 4, some 4, some 4] }

/-- The over-allocation entry the detector produces from `oaSample` at
threshold `2`. -/
def oaEntrySample : OverAllocEntry := { cluster_id := 7, owner := "carol", ratio := 1 }

/-- A table missing three of the four required columns. -/
def badTable : JobTable := { columns := ["ClusterId", "JobStatus"], rows := [] }

/-- First cluster of the user-aggregation example: requested-memory
statistics `(mean 100, count 10)`. -/
def uaSample1 : ClusterAnalysis :=
  { cluster_id := 1, job_count := 10, owner := "alice",
    memory :=
      { requested := { mean := 100, median := 100, stdev := .sqrtOf 0, min := 100, max := 100,
                       count := 10 },
        used := { mean := .q 80, median := .q 80, stdev := .sqrtOf 0, min := .q 80,
                  max := .q 80, count := 10 },
        ratios := { mean := .q 1, median := .q 1, stdev := .sqrtOf 0, min := .q 1, max := .q 1,
                    count := 10 } },
    raw_used_memory := [] }

/-- Second cluster of the user-aggregation example: requested-memory
statistics `(mean 200, count 5)`. -/
def uaSample2 : ClusterAnalysis :=
  { cluster_id := 2, job_count := 5, owner := "alice",
    memory :=
      { requested := { mean := 200, median := 200, stdev := .sqrtOf 0, min := 200, max := 200,
                       count := 5 },
        used := { mean := .q 150, median := .q 150, stdev := .sqrtOf 0, min := .q 150,
                  max := .q 150, count := 5 },
        ratios := { mean := .q 1, median := .q 1, stdev := .sqrtOf 0, min := .q 1, max := .q 1,
                    count := 5 } },
    raw_used_memory := [] }

/-- The totals `_analyze_by_user` accumulates for `alice` on
`[uaSample1, uaSample2]`: in particular `100 * 10 + 200 * 5 = 2000`. -/
def uaTotalsSample : UserTotals :=
  { clusters := [1, 2], total_jobs := 15, total_requested_memory := 2000,
    total_used_memory := .q 1550, memory_ratios := [.q 1, .q 1] }

/-- A table whose single record has a non-positive requested memory and an
absent used memory. -/
def negTable : JobTable :=
  { columns := ["ClusterId", "Owner", "RequestMemory", "MemoryUsage"],
    rows := [{ cluster_id := 1, owner := "v", requested_memory := 0, used_memory := none }] }

/-- A table whose single record has a positive requested memory and an
absent (NaN) used memory: the ratio loop appends a NaN ratio for it. -/
def nanTable : JobTable :=
  { columns := ["ClusterId", "Owner", "RequestMemory", "MemoryUsage"],
    rows := [{ cluster_id := 1, owner := "w", requested_memory := 1000,
               used_memory := none }] }

/-!  Helper lemmas about the statistics of a list. -/

theorem foldl_min_le_init (xs : List ℚ) (a : ℚ) : xs.foldl min a ≤ a := by
  induction xs generalizing a with
  | nil => simp
  | cons x xs ih =>
    simpa using le_trans (ih (min a x)) (min_le_left a x)

theorem foldl_min_le_mem (xs : List ℚ) (a y : ℚ) (hy : y ∈ xs) : xs.foldl min a ≤ y := by
  induction xs generalizing a with
  | nil => cases hy
  | cons x xs ih =>
    rcases List.mem_cons.mp hy with h | h
    · subst h
      simpa using le_trans (foldl_min_le_init xs (min a y)) (min_le_right a y)
    · simpa using ih (min a x) h

theorem listMin_le_mem (vs : List ℚ) (y : ℚ) (hy : y ∈ vs) : listMin vs ≤ y := by
  cases vs with
  | nil => cases hy
  | cons x xs =>
    rcases List.mem_cons.mp hy with h | h
    · subst h
      exact foldl_min_le_init xs y
    · exact foldl_min_le_mem xs x y h

theorem init_le_foldl_max (xs : List ℚ) (a : ℚ) : a ≤ xs.foldl max a := by
  induction xs generalizing a with
  | nil => simp
  | cons x xs ih =>
    simpa using le_trans (le_max_left a x) (ih (max a x))

theorem mem_le_foldl_max (xs : List ℚ) (a y : ℚ) (hy : y ∈ xs) : y ≤ xs.foldl max a := by
  induction xs generalizing a with
  | nil => cases hy
  | cons x xs ih =>
    rcases List.mem_cons.mp hy with h | h
    · subst h
      simpa using le_trans (le_max_right a y) (init_le_foldl_max xs (max a y))
    · simpa using ih (max a x) h

theorem mem_le_listMax (vs : List ℚ) (y : ℚ) (hy : y ∈ vs) : y ≤ listMax vs := by
  cases vs with
  | nil => cases hy
  | cons x xs =>
    rcases List.mem_cons.mp hy with h | h
    · subst h
      exact init_le_foldl_max xs y
    · exact mem_le_foldl_max xs x y h

theorem listMin_le_listMean (vs : List ℚ) (h : vs ≠ []) : listMin vs ≤ listMean vs := by
  have hn : 0 < vs.length := List.length_pos.mpr h
  have hq : 0 < (vs.length : ℚ) := by exact_mod_cast hn
  have hsum : vs.length • listMin vs ≤ vs.sum :=
    List.card_nsmul_le_sum vs (listMin vs) (fun x hx => listMin_le_mem vs x hx)
  rw [listMean, le_div_iff₀ hq]
  calc listMin vs * (vs.length : ℚ) = vs.length • listMin vs := by
        rw [nsmul_eq_mul, mul_comm]
    _ ≤ vs.sum := hsum

theorem listMean_le_listMax (vs : List ℚ) (h : vs ≠ []) : listMean vs ≤ listMax vs := by
  have hn : 0 < vs.length := List.length_pos.mpr h
  have hq : 0 < (vs.length : ℚ) := by exact_mod_cast hn
  have hsum : vs.sum ≤ vs.length • listMax vs :=
    List.sum_le_card_nsmul vs (listMax vs) (fun x hx => mem_le_listMax vs x hx)
  rw [listMean, div_le_iff₀ hq]
  calc vs.sum ≤ vs.length • listMax vs := hsum
    _ = listMax vs * (vs.length : ℚ) := by rw [nsmul_eq_mul, mul_comm]

theorem listMedian_bounds (vs : List ℚ) (h : vs ≠ []) :
    listMin vs ≤ listMedian vs ∧ listMedian vs ≤ listMax vs := by
  have hn : 0 < vs.length := List.length_pos.mpr h
  have hperm : List.Perm (List.insertionSort (fun a b : ℚ => a ≤ b) vs) vs :=
    List.perm_insertionSort _ vs
  have hlen : (List.insertionSort (fun a b : ℚ => a ≤ b) vs).length = vs.length :=
    hperm.length_eq
  have hmem : ∀ i : ℕ, i < vs.length →
      (List.insertionSort (fun a b : ℚ => a ≤ b) vs).getD i 0 ∈ vs := by
    intro i hi
    have hi2 : i < (List.insertionSort (fun a b : ℚ => a ≤ b) vs).length := by
      rw [hlen]; exact hi
    rw [List.getD_eq_getElem _ _ hi2]
    exact hperm.mem_iff.mp (List.getElem_mem hi2)
  rw [listMedian]
  by_cases hpar : vs.length % 2 = 1
  · simp only [hpar, if_pos]
    have hidx : vs.length / 2 < vs.length := Nat.div_lt_self hn (by norm_num)
    have hm := hmem (vs.length / 2) hidx
    exact ⟨listMin_le_mem vs _ hm, mem_le_listMax vs _ hm⟩
  · simp only [hpar, if_neg, ite_false]
    have hidx2 : vs.length / 2 < vs.length := Nat.div_lt_self hn (by norm_num)
    have hidx1 : vs.length / 2 - 1 < vs.length :=
      lt_of_le_of_lt (Nat.sub_le _ _) hidx2
    have hm1 := hmem (vs.length / 2 - 1) hidx1
    have hm2 := hmem (vs.length / 2) hidx2
    have h1a := listMin_le_mem vs _ hm1
    have h1b := mem_le_listMax vs _ hm1
    have h2a := listMin_le_mem vs _ hm2
    have h2b := mem_le_listMax vs _ hm2
    constructor <;> [linarith; linarith]

/-!  Helper lemmas about the cluster aggregation. -/

theorem calculate_stats_count (vs : List ℚ) : (calculate_stats vs).count = vs.length := by
  rw [calculate_stats]
  split
  · next h => simp [List.isEmpty_iff.mp h]
  · rfl

theorem calculateStatsN_count (vs : List (Option ℚ)) :
    (calculateStatsN vs).count = vs.length := by
  rw [calculateStatsN]
  split
  · next h => simp [List.isEmpty_iff.mp h]
  · rfl

theorem mem_clusterGroup (jobs : List JobRecord) (c : Int) (j : JobRecord) :
    j ∈ clusterGroup jobs c ↔ j ∈ jobs ∧ j.cluster_id = c := by
  simp [clusterGroup, List.mem_filter]

theorem mem_clusterIds (jobs : List JobRecord) (c : Int) :
    c ∈ clusterIds jobs ↔ ∃ j ∈ jobs, j.cluster_id = c := by
  rw [clusterIds, List.mem_insertionSort, List.mem_dedup, List.mem_map]

theorem filter_filter_of_imp {α : Type} (p q : α → Bool) (l : List α)
    (h : ∀ a ∈ l, q a = true → p a = true) :
    (l.filter p).filter q = l.filter q := by
  induction l with
  | nil => rfl
  | cons x xs ih =>
    have hx := h x (List.mem_cons_self x xs)
    have hxs : ∀ a ∈ xs, q a = true → p a = true :=
      fun a ha => h a (List.mem_cons_of_mem x ha)
    by_cases hq : q x = true
    · have hp := hx hq
      simp [List.filter_cons, hp, hq, ih hxs]
    · by_cases hp : p x = true
      · simp [List.filter_cons, hp, hq, ih hxs]
      · simp [List.filter_cons, hp, hq, ih hxs]

theorem clusterGroup_filteredRows (rows : List JobRecord) (m : ℕ) (c : Int)
    (h : m ≤ (clusterGroup rows c).length) :
    clusterGroup (filteredRows rows m) c = clusterGroup rows c := by
  rw [filteredRows, clusterGroup, clusterGroup]
  apply filter_filter_of_imp
  intro j _ hq
  have hc : j.cluster_id = c := by simpa using hq
  rw [hc]
  simpa using h

theorem min_jobs_le_of_mem_clusterIds (rows : List JobRecord) (m : ℕ) (c : Int)
    (h : c ∈ clusterIds (filteredRows rows m)) :
    m ≤ (clusterGroup rows c).length := by
  obtain ⟨j, hj, hc⟩ := (mem_clusterIds _ _).mp h
  rw [filteredRows, List.mem_filter] at hj
  have h2 := of_decide_eq_true hj.2
  rwa [hc] at h2

theorem mem_analyzeByCluster (jobs : List JobRecord) (a : ClusterAnalysis) :
    a ∈ analyzeByCluster jobs ↔ ∃ c ∈ clusterIds jobs, a = analyzeCluster jobs c := by
  rw [analyzeByCluster, List.mem_insertionSort, List.mem_map]
  constructor
  · rintro ⟨c, hc, rfl⟩
    exact ⟨c, hc, rfl⟩
  · rintro ⟨c, hc, rfl⟩
    exact ⟨c, hc, rfl⟩

theorem analyzeCluster_spec (jobs : List JobRecord) (c : Int) :
    (analyzeCluster jobs c).cluster_id = c ∧
    (analyzeCluster jobs c).job_count = (clusterGroup jobs c).length ∧
    (analyzeCluster jobs c).raw_used_memory
      = (clusterGroup jobs c).map (fun j => j.used_memory) ∧
    (analyzeCluster jobs c).memory.requested
      = calculate_stats ((clusterGroup jobs c).map (fun j => j.requested_memory)) ∧
    (analyzeCluster jobs c).memory.used
      = calculateStatsN ((clusterGroup jobs c).map (fun j => j.used_memory)) ∧
    (analyzeCluster jobs c).memory.ratios
      = calculateStatsN (memoryRatios ((clusterGroup jobs c).map (fun j => j.requested_memory))
          ((clusterGroup jobs c).map (fun j => j.used_memory))) :=
  ⟨rfl, rfl, rfl, rfl, rfl, rfl⟩

theorem analyze_ok_elim (t : JobTable) (m : ℕ) (r : AnalysisResult)
    (h : analyze t m = Except.ok r) :
    r.cluster_analyses = analyzeByCluster (filteredRows t.rows m) ∧
    r.user_totals = analyzeByUser r.cluster_analyses ∧
    r.over_allocators = findOverAllocators r.cluster_analyses defaultThreshold := by
  rw [analyze] at h
  split at h
  · rw [Except.ok.injEq] at h
    subst h
    exact ⟨rfl, rfl, rfl⟩
  · cases h

theorem memoryRatios_map (g : List JobRecord) :
    memoryRatios (g.map (fun j => j.requested_memory)) (g.map (fun j => j.used_memory)) =
      (g.filter (fun j => decide (0 < j.requested_memory))).map
        (fun j => j.used_memory.map (fun u => u / j.requested_memory)) := by
  induction g with
  | nil => rfl
  | cons j g ih =>
    simp only [List.map_cons, memoryRatios, List.zip_cons_cons, List.filterMap_cons] at ih ⊢
    by_cases hreq : 0 < j.requested_memory
    · have hne : j.requested_memory ≠ 0 := hreq.ne'
      cases hu : j.used_memory with
      | some u =>
        simp [hreq, hne, hu, List.filter_cons, ih]
      | none =>
        simp [hreq, hne, hu, List.filter_cons, ih]
    · have hcond : ¬(j.requested_memory ≠ 0 ∧ 0 < j.requested_memory) := fun hc => hreq hc.2
      simp [hcond, hreq, List.filter_cons, ih]

/-!  Helper lemmas about the user aggregation. -/

theorem NumQ.add_q_zero (x : NumQ) : x.add (NumQ.q 0) = x := by
  cases x <;> simp [NumQ.add]

theorem addAnalysis_req (t : UserTotals) (a : ClusterAnalysis) :
    (addAnalysis t a).total_requested_memory = t.total_requested_memory + reqTerm a := by
  by_cases hc : 0 < a.memory.requested.count <;>
    simp [addAnalysis, reqTerm, hc]

theorem addAnalysis_used (t : UserTotals) (a : ClusterAnalysis) :
    (addAnalysis t a).total_used_memory = t.total_used_memory.add (usedTerm a) := by
  by_cases hc : 0 < a.memory.used.count <;>
    simp [addAnalysis, usedTerm, hc, NumQ.add_q_zero]

theorem lookupUser_updateUser (m : List (String × UserTotals)) (a : ClusterAnalysis)
    (o : String) :
    lookupUser (updateUser m a) o =
      if a.owner = o then some (addAnalysis ((lookupUser m o).getD UserTotals.empty) a)
      else lookupUser m o := by
  induction m with
  | nil =>
    by_cases h : a.owner = o <;> simp [updateUser, lookupUser, h]
  | cons p rest ih =>
    obtain ⟨o2, t⟩ := p
    by_cases h1 : o2 = a.owner <;> by_cases h2 : o2 = o
    · have ha : a.owner = o := h1.symm.trans h2
      simp [updateUser, lookupUser, h1, h2, ha]
    · have ha : ¬a.owner = o := fun h => h2 (h1.trans h)
      simp [updateUser, lookupUser, h1, h2, ha]
    · have ha : ¬a.owner = o := fun h => h1 (h2.trans h.symm)
      have ha2 : ¬o = a.owner := fun h => h1 (h2.trans h)
      simp [updateUser, lookupUser, h1, h2, ha, ha2]
    · simp [updateUser, lookupUser, h1, h2, ih]

theorem lookupUser_foldl_some (analyses : List ClusterAnalysis)
    (m : List (String × UserTotals)) (o : String) (t : UserTotals)
    (h : lookupUser m o = some t) :
    lookupUser (analyses.foldl updateUser m) o =
      some ((analyses.filter (fun a => a.owner == o)).foldl addAnalysis t) := by
  induction analyses generalizing m t with
  | nil => simpa using h
  | cons a rest ih =>
    rw [List.foldl_cons, List.filter_cons]
    by_cases ha : a.owner = o
    · have hbeq : (a.owner == o) = true := by simpa using ha
      have hstep : lookupUser (updateUser m a) o = some (addAnalysis t a) := by
        rw [lookupUser_updateUser, if_pos ha, h]
        rfl
      rw [hbeq, if_pos rfl, List.foldl_cons]
      exact ih (updateUser m a) (addAnalysis t a) hstep
    · have hbeq : (a.owner == o) = false := by simpa using ha
      have hstep : lookupUser (updateUser m a) o = some t := by
        rw [lookupUser_updateUser, if_neg ha, h]
      rw [hbeq, if_neg (by simp)]
      exact ih (updateUser m a) t hstep

theorem lookupUser_foldl_none (analyses : List ClusterAnalysis)
    (m : List (String × UserTotals)) (o : String)
    (h : lookupUser m o = none) :
    lookupUser (analyses.foldl updateUser m) o =
      if (analyses.filter (fun a => a.owner == o)).isEmpty then none
      else some ((analyses.filter (fun a => a.owner == o)).foldl addAnalysis
        UserTotals.empty) := by
  induction analyses generalizing m with
  | nil => simpa using h
  | cons a rest ih =>
    rw [List.foldl_cons]
    by_cases ha : a.owner = o
    · have hfc : List.filter (fun x => x.owner == o) (a :: rest)
          = a :: List.filter (fun x => x.owner == o) rest := by
        simp [List.filter_cons, ha]
      have hstep : lookupUser (updateUser m a) o = some (addAnalysis UserTotals.empty a) := by
        rw [lookupUser_updateUser, if_pos ha, h]
        rfl
      rw [hfc]
      rw [lookupUser_foldl_some rest (updateUser m a) o _ hstep]
      simp [List.foldl_cons]
    · have hfc : List.filter (fun x => x.owner == o) (a :: rest)
          = List.filter (fun x => x.owner == o) rest := by
        simp [List.filter_cons, ha]
      have hstep : lookupUser (updateUser m a) o = none := by
        rw [lookupUser_updateUser, if_neg ha, h]
      rw [hfc]
      exact ih (updateUser m a) hstep

theorem foldl_addAnalysis_req (l : List ClusterAnalysis) (t : UserTotals) :
    (l.foldl addAnalysis t).total_requested_memory =
      t.total_requested_memory + (l.map reqTerm).sum := by
  induction l generalizing t with
  | nil => simp
  | cons a l ih =>
    rw [List.foldl_cons, ih, addAnalysis_req, List.map_cons, List.sum_cons]
    ring

theorem foldl_addAnalysis_used (l : List ClusterAnalysis) (t : UserTotals) :
    (l.foldl addAnalysis t).total_used_memory =
      (l.map usedTerm).foldl NumQ.add t.total_used_memory := by
  induction l generalizing t with
  | nil => rfl
  | cons a l ih =>
    rw [List.foldl_cons, ih, addAnalysis_used, List.map_cons, List.foldl_cons]

theorem calculate_stats_ne_empty (vs : List ℚ) (h : vs ≠ []) :
    calculate_stats vs =
      { mean := listMean vs, median := listMedian vs,
        stdev := if vs.length = 1 then .nan else .sqrtOf (sampleVar vs),
        min := listMin vs, max := listMax vs, count := vs.length } := by
  rw [calculate_stats, if_neg]
  simpa [List.isEmpty_iff] using h

/-!  The claims. -/

/-- C1: for every list of cluster analyses and every threshold, every
entry of the over-allocation detector has a mean usage ratio strictly
between `0` and the threshold (a mean ratio of exactly `0` is excluded),
and the output is sorted non-decreasingly by ratio. -/
theorem c1_detect_bounds_sorted (analyses : List ClusterAnalysis) (threshold : ℚ) :
    (∀ e ∈ findOverAllocators analyses threshold, 0 < e.ratio ∧ e.ratio < threshold) ∧
    List.Sorted ratioLE (findOverAllocators analyses threshold) := by
  constructor
  · intro e he
    rw [findOverAllocators, List.mem_insertionSort] at he
    obtain ⟨a, -, hfa⟩ := List.mem_filterMap.mp he
    split at hfa
    · cases hfa
    · next x _ =>
      by_cases hc : 0 < x ∧ x < threshold
      · rw [if_pos hc] at hfa
        obtain rfl := Option.some.inj hfa
        exact ⟨hc.1, hc.2⟩
      · rw [if_neg hc] at hfa
        cases hfa
  · exact List.sorted_insertionSort ratioLE _

/-- C2: a successful `analyze` returns no cluster with fewer than
`min_jobs` jobs, and each returned `job_count` equals the exact number of
input rows carrying that cluster id. -/
theorem c2_job_count_exact (t : JobTable) (m : ℕ) (r : AnalysisResult)
    (hok : analyze t m = Except.ok r) (a : ClusterAnalysis)
    (ha : a ∈ r.cluster_analyses) :
    m ≤ a.job_count ∧ a.job_count = (clusterGroup t.rows a.cluster_id).length := by
  obtain ⟨hca, -, -⟩ := analyze_ok_elim t m r hok
  rw [hca] at ha
  obtain ⟨c, hc, rfl⟩ := (mem_analyzeByCluster _ _).mp ha
  obtain ⟨hcid, hjc, -, -, -, -⟩ := analyzeCluster_spec (filteredRows t.rows m) c
  have hmin := min_jobs_le_of_mem_clusterIds t.rows m c hc
  have hgroup := clusterGroup_filteredRows t.rows m c hmin
  rw [hcid, hjc, hgroup]
  exact ⟨hmin, rfl⟩

/-- C3: the code, evaluated at the failing input — one record with
requested memory `1000` and an absent (NaN) used memory.  The ratio loop
appends `nan / 1000 = nan` for it, because a NaN used value passes
`used is not None`, and `len(series)` counts the NaN entry; so
`ratios.count = 1` although no record of the table has both a positive
requested memory and a present used memory.  The claim requires such a
record's ratio to be excluded, i.e. `ratios.count = 0`. -/
theorem c3_code_bug_eval :
    ((analyze nanTable 1).toOption.map (fun r => r.cluster_analyses.map
        (fun a => a.memory.ratios.count))) = some [1] ∧
    (nanTable.rows.filter (fun j => decide (0 < j.requested_memory)
        && j.used_memory.isSome)).length = 0 :=
  ⟨by decide, by decide⟩

/-- C6: when a required column is missing, `analyze` fails with a schema
error that carries both the missing and the available column names, and
produces no result bundle. -/
theorem c6_schema_error (t : JobTable) (m : ℕ)
    (h : requiredColumns.filter (fun c => !(t.columns.contains c)) ≠ []) :
    analyze t m = Except.error
      (AnalyzeError.schemaError
        (requiredColumns.filter (fun c => !(t.columns.contains c))) t.columns) := by
  rw [analyze]
  rw [if_neg]
  simpa [List.isEmpty_iff] using h

/-- C4: the statistics of an empty sequence are exactly the all-zero
result (`sqrtOf 0` denotes the standard deviation `0`); no field is NaN. -/
theorem c4_empty_stats :
    calculate_stats []
      = { mean := 0, median := 0, stdev := .sqrtOf 0, min := 0, max := 0, count := 0 } ∧
    calculateStatsN []
      = { mean := .q 0, median := .q 0, stdev := .sqrtOf 0, min := .q 0, max := .q 0,
          count := 0 } :=
  ⟨rfl, rfl⟩

/-- C5 (amended): for a single-element sequence, `count` is `1` and mean,
median, min, max equal the element, but the standard deviation is NaN
(pandas sample std with `ddof = 1`), not `0` as the claim states. -/
theorem c5_single_element (x : ℚ) :
    calculate_stats [x]
      = { mean := x, median := x, stdev := .nan, min := x, max := x, count := 1 } := by
  simp [calculate_stats, listMean, listMedian, listMin, listMax, List.insertionSort,
    List.orderedInsert]

/-- C5 counterexample: on the single-element input `[5]` the standard
deviation is NaN, which is not the value `0` (`sqrtOf 0`) the claim
requires. -/
theorem c5_counterexample :
    (calculate_stats [5]).stdev = StdevVal.nan ∧ StdevVal.nan ≠ StdevVal.sqrtOf 0 :=
  ⟨rfl, by decide⟩

/-- C8: for every non-empty sequence, the mean and the median lie between
the minimum and the maximum. -/
theorem c8_mean_median_bounds (vs : List ℚ) (h : vs ≠ []) :
    (calculate_stats vs).min ≤ (calculate_stats vs).mean ∧
    (calculate_stats vs).mean ≤ (calculate_stats vs).max ∧
    (calculate_stats vs).min ≤ (calculate_stats vs).median ∧
    (calculate_stats vs).median ≤ (calculate_stats vs).max := by
  rw [calculate_stats_ne_empty vs h]
  obtain ⟨h1, h2⟩ := listMedian_bounds vs h
  exact ⟨listMin_le_listMean vs h, listMean_le_listMax vs h, h1, h2⟩

/-- C7: each owner's `total_requested_memory` is the sum over that
owner's clusters of `mean * count` of the requested statistic, skipping
zero-count clusters, and likewise `total_used_memory` with NaN-propagating
addition. -/
theorem c7_user_totals (analyses : List ClusterAnalysis) (o : String) (u : UserTotals)
    (h : lookupUser (analyzeByUser analyses) o = some u) :
    u.total_requested_memory
      = ((analyses.filter (fun a => a.owner == o)).map reqTerm).sum ∧
    u.total_used_memory
      = ((analyses.filter (fun a => a.owner == o)).map usedTerm).foldl NumQ.add
          (NumQ.q 0) := by
  rw [analyzeByUser, lookupUser_foldl_none analyses [] o rfl] at h
  by_cases he : (analyses.filter (fun a => a.owner == o)).isEmpty
  · rw [if_pos he] at h
    cases h
  · rw [if_neg he] at h
    obtain rfl := Option.some.inj h
    constructor
    · rw [foldl_addAnalysis_req]
      simp [UserTotals.empty]
    · rw [foldl_addAnalysis_used]
      rfl

/-- C9 (amended): for every returned cluster analysis, the requested and
used counts both equal `job_count` exactly — records with non-positive or
absent memory values are counted, not excluded (only the ratios statistic
filters them). -/
theorem c9_counts_equal_job_count (t : JobTable) (m : ℕ) (r : AnalysisResult)
    (hok : analyze t m = Except.ok r) (a : ClusterAnalysis)
    (ha : a ∈ r.cluster_analyses) :
    a.memory.requested.count = a.job_count ∧ a.memory.used.count = a.job_count := by
  obtain ⟨hca, -, -⟩ := analyze_ok_elim t m r hok
  rw [hca] at ha
  obtain ⟨c, hc, rfl⟩ := (mem_analyzeByCluster _ _).mp ha
  obtain ⟨-, hjc, -, hreq, hused, -⟩ := analyzeCluster_spec (filteredRows t.rows m) c
  rw [hjc, hreq, hused, calculate_stats_count, calculateStatsN_count]
  constructor <;> rw [List.length_map]

/-- C10: the retained raw used-memory sequence of a returned cluster is
exactly the group's used-memory values in their original order, absent
values included, and its length equals `job_count`. -/
theorem c10_raw_used_memory (t : JobTable) (m : ℕ) (r : AnalysisResult)
    (hok : analyze t m = Except.ok r) (a : ClusterAnalysis)
    (ha : a ∈ r.cluster_analyses) :
    a.raw_used_memory = (clusterGroup t.rows a.cluster_id).map (fun j => j.used_memory) ∧
    a.raw_used_memory.length = a.job_count := by
  obtain ⟨hca, -, -⟩ := analyze_ok_elim t m r hok
  rw [hca] at ha
  obtain ⟨c, hc, rfl⟩ := (mem_analyzeByCluster _ _).mp ha
  obtain ⟨hcid, hjc, hraw, -, -, -⟩ := analyzeCluster_spec (filteredRows t.rows m) c
  have hmin := min_jobs_le_of_mem_clusterIds t.rows m c hc
  have hgroup := clusterGroup_filteredRows t.rows m c hmin
  rw [hcid, hjc, hraw, hgroup]
  exact ⟨rfl, List.length_map _ _⟩

/-!  Witnesses: the theorems above instantiated at concrete inputs. -/

/-- Shared evaluation: `analyze` on the one-job sample table. -/
theorem analyze_sampleTable : analyze sampleTable 1 = Except.ok sampleResult := by
  norm_num [analyze, sampleTable, sampleResult, sampleAnalysis, requiredColumns, filteredRows,
    clusterGroup, clusterIds, analyzeByCluster, analyzeCluster, memoryRatios,
    calculate_stats, calculateStatsN, listMean, listMedian, listMin, listMax,
    List.insertionSort, List.orderedInsert, analyzeByUser, updateUser, addAnalysis,
    UserTotals.empty, findOverAllocators, defaultThreshold, NumQ.add, NumQ.mul,
    List.filterMap_cons, List.filterMap_nil, List.sum_cons, List.sum_nil,
    List.foldl_cons, List.foldl_nil, List.filter_cons, List.filter_nil]

/-- Witness for C1 at `[oaSample]` with threshold `2`. -/
theorem c1_witness : 0 < oaEntrySample.ratio ∧ oaEntrySample.ratio < 2 :=
  (c1_detect_bounds_sorted [oaSample] 2).1 oaEntrySample (by decide)

/-- Witness for C2 at the sample table. -/
theorem c2_witness :
    1 ≤ sampleAnalysis.job_count ∧
    sampleAnalysis.job_count
      = (clusterGroup sampleTable.rows sampleAnalysis.cluster_id).length :=
  c2_job_count_exact sampleTable 1 sampleResult analyze_sampleTable sampleAnalysis (by decide)

/-- Witness for C6 at a table missing three required columns. -/
theorem c6_witness :
    analyze badTable 2 = Except.error
      (AnalyzeError.schemaError
        (requiredColumns.filter (fun c => !(badTable.columns.contains c)))
        badTable.columns) :=
  c6_schema_error badTable 2 (by decide)

/-- Witness for C7 at the two-cluster example of the specification:
`uaTotalsSample.total_requested_memory` is the literal `2000`. -/
theorem c7_witness :
    uaTotalsSample.total_requested_memory
      = (([uaSample1, uaSample2].filter (fun a => a.owner == "alice")).map reqTerm).sum ∧
    uaTotalsSample.total_used_memory
      = (([uaSample1, uaSample2].filter (fun a => a.owner == "alice")).map usedTerm).foldl
          NumQ.add (NumQ.q 0) :=
  c7_user_totals [uaSample1, uaSample2] "alice" uaTotalsSample (by
    norm_num [analyzeByUser, updateUser, addAnalysis, lookupUser, UserTotals.empty,
      uaSample1, uaSample2, uaTotalsSample, NumQ.add, NumQ.mul, List.foldl_cons,
      List.foldl_nil])

/-- Witness for C8 at `[1, 2, 3]`. -/
theorem c8_witness :
    (calculate_stats [1, 2, 3]).min ≤ (calculate_stats [1, 2, 3]).mean ∧
    (calculate_stats [1, 2, 3]).mean ≤ (calculate_stats [1, 2, 3]).max ∧
    (calculate_stats [1, 2, 3]).min ≤ (calculate_stats [1, 2, 3]).median ∧
    (calculate_stats [1, 2, 3]).median ≤ (calculate_stats [1, 2, 3]).max :=
  c8_mean_median_bounds [1, 2, 3] (by decide)

/-- C9 counterexample: on a table whose single record has requested
memory `0` and an absent used memory, the returned requested and used
counts are both `1` (equal to `job_count`), although no record has a
positive requested memory or a present used memory; the exclusion the
claim asserts does not happen. -/
theorem c9_counterexample :
    ((analyze negTable 1).toOption.map (fun r => r.cluster_analyses.map
        (fun a => (a.memory.requested.count, a.memory.used.count, a.job_count))))
      = some [(1, 1, 1)] ∧
    (negTable.rows.filter (fun j => decide (0 < j.requested_memory))).length = 0 ∧
    (negTable.rows.filter (fun j => j.used_memory.isSome)).length = 0 :=
  ⟨by decide, by decide, by decide⟩

/-- Witness for the amended C9 at the sample table. -/
theorem c9_witness :
    sampleAnalysis.memory.requested.count = sampleAnalysis.job_count ∧
    sampleAnalysis.memory.used.count = sampleAnalysis.job_count :=
  c9_counts_equal_job_count sampleTable 1 sampleResult analyze_sampleTable sampleAnalysis
    (by decide)

/-- Witness for C10 at the sample table. -/
theorem c10_witness :
    sampleAnalysis.raw_used_memory
      = (clusterGroup sampleTable.rows sampleAnalysis.cluster_id).map (fun j => j.used_memory) ∧
    sampleAnalysis.raw_used_memory.length = sampleAnalysis.job_count :=
  c10_raw_used_memory sampleTable 1 sampleResult analyze_sampleTable sampleAnalysis (by decide)
